import Mathlib

/-!
Verification of the Bedrock provider-dispatch adapter and the Wikipedia
retrieval tool of the `langchain-rust` excerpt.

The Rust code is shallowly embedded: Rust `String` is Lean `String`
(prefix/containment tests go through the underlying character list, which
coincides with Rust byte-level tests on valid UTF-8), `serde_json::Value`
is the inductive `Json` below with numbers as exact rationals (all numeric
literals occurring in the adapter, such as 0.5, 0.7, 0.9, 1.0, 512, are
exactly representable in `f32`/`f64`, so rationals are a faithful model),
and fallible Rust functions return `Except`.
-/

set_option autoImplicit false

namespace LangchainRust

/-- Shallow embedding of `serde_json::Value`. -/
inductive Json where
  | null : Json
  | bool (b : Bool) : Json
  | num (q : ℚ) : Json
  | str (s : String) : Json
  | arr (xs : List Json) : Json
  | obj (fields : List (String × Json)) : Json

/-- Rust `str::starts_with`: on valid UTF-8, byte-prefix testing coincides
with character-list prefix testing. -/
def strStartsWith (s pat : String) : Bool :=
  pat.data.isPrefixOf s.data

/-- Rust `str::ends_with`. -/
def strEndsWith (s pat : String) : Bool :=
  pat.data.isSuffixOf s.data

/-- Substring occurrence test on character lists. -/
def listIsInfix (pat : List Char) : List Char → Bool
  | [] => pat.isEmpty
  | c :: rest => pat.isPrefixOf (c :: rest) || listIsInfix pat rest

/-- Rust `str::contains` (substring search): on valid UTF-8, byte-infix
testing coincides with character-list infix testing. -/
def strContains (s pat : String) : Bool :=
  listIsInfix pat.data s.data

/-- The `BedrockModel` enum from `src/llm/bedrock/mod.rs`. -/
inductive BedrockModel where
  | anthropicClaudeV2
  | anthropicClaudeInstantV1
  | anthropicClaude3Sonnet
  | anthropicClaude3Haiku
  | anthropicClaude3Opus
  | anthropicClaude35Haiku
  | anthropicClaude4Sonnet
  | anthropicClaude45Haiku
  | anthropicClaude41Opus
  | anthropicClaude45Opus
  | anthropicClaude45Sonnet
  | ai21Jurassic2Mid
  | ai21Jurassic2Ultra
  | amazonTitanTextExpress
  | amazonTitanTextLite
  | cohereCommand
  | cohereCommandLight
  | metaLlama2Chat13B
  | metaLlama2Chat70B
  | custom (id : String)
  deriving DecidableEq

namespace BedrockModel

/-- `BedrockModel::model_id` — the wire identifier sent to the service. -/
def modelId : BedrockModel → String
  | anthropicClaudeV2 => "anthropic.claude-v2"
  | anthropicClaudeInstantV1 => "anthropic.claude-instant-v1"
  | anthropicClaude3Sonnet => "anthropic.claude-3-sonnet-20240229-v1:0"
  | anthropicClaude3Haiku => "anthropic.claude-3-haiku-20240307-v1:0"
  | anthropicClaude3Opus => "anthropic.claude-3-opus-20240229-v1:0"
  | anthropicClaude35Haiku => "anthropic.claude-3-5-haiku-20241022-v1:0"
  | anthropicClaude4Sonnet => "anthropic.claude-sonnet-4-20250514-v1:0"
  | anthropicClaude45Haiku => "anthropic.claude-haiku-4-5-20251001-v1:0"
  | anthropicClaude41Opus => "anthropic.claude-opus-4-1-20250805-v1:0"
  | anthropicClaude45Opus => "anthropic.claude-opus-4-5-20251101-v1:0"
  | anthropicClaude45Sonnet => "anthropic.claude-sonnet-4-5-20250929-v1:0"
  | ai21Jurassic2Mid => "ai21.j2-mid-v1"
  | ai21Jurassic2Ultra => "ai21.j2-ultra-v1"
  | amazonTitanTextExpress => "amazon.titan-text-express-v1"
  | amazonTitanTextLite => "amazon.titan-text-lite-v1"
  | cohereCommand => "cohere.command-text-v14"
  | cohereCommandLight => "cohere.command-light-text-v14"
  | metaLlama2Chat13B => "meta.llama2-13b-chat-v1"
  | metaLlama2Chat70B => "meta.llama2-70b-chat-v1"
  | custom id => id

/-- `BedrockModel::provider` — provider tag; for custom ids the tag is
inferred from the id prefix, defaulting to `"anthropic"`. -/
def provider : BedrockModel → String
  | anthropicClaudeV2 | anthropicClaudeInstantV1 | anthropicClaude3Sonnet
  | anthropicClaude3Haiku | anthropicClaude3Opus | anthropicClaude35Haiku
  | anthropicClaude4Sonnet | anthropicClaude45Haiku | anthropicClaude41Opus
  | anthropicClaude45Opus | anthropicClaude45Sonnet => "anthropic"
  | ai21Jurassic2Mid | ai21Jurassic2Ultra => "ai21"
  | amazonTitanTextExpress | amazonTitanTextLite => "amazon"
  | cohereCommand | cohereCommandLight => "cohere"
  | metaLlama2Chat13B | metaLlama2Chat70B => "meta"
  | custom id =>
    if strStartsWith id "anthropic." then "anthropic"
    else if strStartsWith id "ai21." then "ai21"
    else if strStartsWith id "amazon." then "amazon"
    else if strStartsWith id "cohere." then "cohere"
    else if strStartsWith id "meta." then "meta"
    else "anthropic"

end BedrockModel

/-- First-match lookup in a JSON object field list. -/
def lookupField : List (String × Json) → String → Option Json
  | [], _ => none
  | (k', v) :: rest, k => if k' = k then some v else lookupField rest k

/-- Field access on a JSON value: `Some` for an object that has the key. -/
def jGet (j : Json) (k : String) : Option Json :=
  match j with
  | .obj fields => lookupField fields k
  | _ => none

/-- Rust `serde_json::Value` read-indexing by string key: a missing key or a
non-object yields `Null`. -/
def jIndex (j : Json) (k : String) : Json :=
  (jGet j k).getD .null

/-- Rust `serde_json::Value` read-indexing by array position: out of bounds
or non-array yields `Null`. -/
def jIndexNat (j : Json) (n : Nat) : Json :=
  match j with
  | .arr xs => xs.getD n .null
  | _ => .null

/-- Rust `Value::as_str().unwrap_or("")`. -/
def asStrOr (j : Json) : String :=
  match j with
  | .str s => s
  | _ => ""

/-- Insert-or-replace of a key in a JSON object field list (model of
`serde_json` map insertion, as performed by `value[key] = v`). -/
def setField : List (String × Json) → String → Json → List (String × Json)
  | [], k, v => [(k, v)]
  | (k', v') :: rest, k, v =>
    if k' = k then (k, v) :: rest else (k', v') :: setField rest k v

/-- Rust `value[key] = v` on an object (the adapter only ever assigns into
objects). -/
def jSet (j : Json) (k : String) (v : Json) : Json :=
  match j with
  | .obj fields => .obj (setField fields k v)
  | _ => j

/-- The `BedrockError` enum (spec vocabulary: `InvalidModel` is the spec's
`InvalidModelConfiguration`, `serdeError` its `SerializationError`). -/
inductive BedrockError where
  | awsError (msg : String)
  | invalidModel (msg : String)
  | serdeError (msg : String)
  | invalidRegion (msg : String)
  | invocationError (msg : String)
  deriving DecidableEq

/-- The `BedrockConfig` struct. Floating-point fields are modelled as exact
rationals; every literal the adapter uses (0.5, 0.7, 0.9, 1.0) is exactly
representable in `f32`/`f64`. -/
structure BedrockConfig where
  region : Option String
  model : BedrockModel
  temperature : Option ℚ
  max_tokens : Option Int
  top_p : Option ℚ
  top_k : Option Int
  stop_sequences : List String
  model_kwargs : Json

/-- `BedrockConfig::default`. -/
def BedrockConfig.default : BedrockConfig :=
  ⟨some "us-west-2", .anthropicClaude3Sonnet, some (7/10), some 512, none, none, [], .obj []⟩

/-- `Bedrock::format_prompt`; the receiver only reads
`self.config.model.provider()`, so the provider tag is the first argument. -/
def formatPrompt (provider : String) (prompt : String) : String :=
  if provider = "anthropic" then
    if strStartsWith prompt "Human:" || strStartsWith prompt "\n\nHuman:" then
      prompt
    else
      "\n\nHuman: " ++ prompt ++ "\n\nAssistant:"
  else
    prompt

/-- The body of `Bedrock::build_request_body` after the provider tag has been
computed (the source matches on `self.config.model.provider()`; the match is
factored out here so that the catch-all arm is directly addressable). -/
def buildRequestBodyFor (provider : String) (config : BedrockConfig) (prompt : String) :
    Except BedrockError Json :=
  let formattedPrompt := formatPrompt provider prompt
  if provider = "anthropic" then
    let request := Json.obj
      [("prompt", .str formattedPrompt),
       ("max_tokens_to_sample", .num ((config.max_tokens.getD 512 : Int) : ℚ))]
    let request := match config.temperature with
      | some t => jSet request "temperature" (.num t)
      | none => request
    let request := match config.top_p with
      | some v => jSet request "top_p" (.num v)
      | none => request
    let request := match config.top_k with
      | some v => jSet request "top_k" (.num ((v : Int) : ℚ))
      | none => request
    let request := if config.stop_sequences.isEmpty then request
      else jSet request "stop_sequences" (.arr (config.stop_sequences.map .str))
    .ok request
  else if provider = "ai21" then
    .ok (.obj
      [("prompt", .str formattedPrompt),
       ("maxTokens", .num ((config.max_tokens.getD 512 : Int) : ℚ)),
       ("temperature", .num (config.temperature.getD (7/10))),
       ("topP", .num (config.top_p.getD 1))])
  else if provider = "amazon" then
    .ok (.obj
      [("inputText", .str formattedPrompt),
       ("textGenerationConfig", .obj
         [("maxTokenCount", .num ((config.max_tokens.getD 512 : Int) : ℚ)),
          ("temperature", .num (config.temperature.getD (7/10))),
          ("topP", .num (config.top_p.getD 1)),
          ("stopSequences", .arr (config.stop_sequences.map .str))])])
  else if provider = "cohere" then
    .ok (.obj
      [("prompt", .str formattedPrompt),
       ("max_tokens", .num ((config.max_tokens.getD 512 : Int) : ℚ)),
       ("temperature", .num (config.temperature.getD (7/10))),
       ("p", .num (config.top_p.getD (9/10))),
       ("k", .num ((config.top_k.getD 0 : Int) : ℚ)),
       ("stop_sequences", .arr (config.stop_sequences.map .str))])
  else if provider = "meta" then
    .ok (.obj
      [("prompt", .str formattedPrompt),
       ("max_gen_len", .num ((config.max_tokens.getD 512 : Int) : ℚ)),
       ("temperature", .num (config.temperature.getD (7/10))),
       ("top_p", .num (config.top_p.getD (9/10)))])
  else
    .error (.invalidModel ("Unsupported model provider: " ++ provider))

/-- `Bedrock::build_request_body`. -/
def buildRequestBody (config : BedrockConfig) (prompt : String) : Except BedrockError Json :=
  buildRequestBodyFor config.model.provider config prompt

/-- `Bedrock::parse_response`. The `serde_json::from_slice` step is modelled
by the `Except String Json` argument: `.ok j` is a successful parse of the
raw bytes, `.error e` a malformed-JSON failure carrying the parser message. -/
def parseResponse (provider : String) (parsed : Except String Json) :
    Except BedrockError String :=
  match parsed with
  | .error e => .error (.serdeError e)
  | .ok responseJson =>
    if provider = "anthropic" then
      .ok (asStrOr (jIndex responseJson "completion"))
    else if provider = "ai21" then
      .ok (asStrOr (jIndex (jIndex (jIndexNat (jIndex responseJson "completions") 0) "data") "text"))
    else if provider = "amazon" then
      .ok (asStrOr (jIndex (jIndexNat (jIndex responseJson "results") 0) "outputText"))
    else if provider = "cohere" then
      .ok (asStrOr (jIndex (jIndexNat (jIndex responseJson "generations") 0) "text"))
    else if provider = "meta" then
      .ok (asStrOr (jIndex responseJson "generation"))
    else
      .error (.invalidModel ("Unsupported model provider: " ++ provider))

/-- One step of a documented JSON path (spec side, for C3). -/
inductive PathStep where
  | field (k : String)
  | index (n : Nat)

/-- Follow a path from the spec, with Rust index semantics. -/
def extractJson (j : Json) : List PathStep → Json
  | [] => j
  | .field k :: rest => extractJson (jIndex j k) rest
  | .index n :: rest => extractJson (jIndexNat j n) rest

/-- The string at the end of a path, if the path leads to a string. -/
def extractStr (j : Json) (path : List PathStep) : Option String :=
  match extractJson j path with
  | .str s => some s
  | _ => none

/-- The documented fixed JSON path per provider, from the spec:
`completion`; `completions[0].data.text`; `results[0].outputText`;
`generations[0].text`; `generation`. -/
def docPath (provider : String) : List PathStep :=
  if provider = "anthropic" then [.field "completion"]
  else if provider = "ai21" then [.field "completions", .index 0, .field "data", .field "text"]
  else if provider = "amazon" then [.field "results", .index 0, .field "outputText"]
  else if provider = "cohere" then [.field "generations", .index 0, .field "text"]
  else if provider = "meta" then [.field "generation"]
  else []

/-- `Bedrock::requires_converse_api` (the receiver only reads
`self.config.model`, so it is modelled as a function of the model). -/
def requiresConverseApi : BedrockModel → Bool
  | .anthropicClaude3Sonnet | .anthropicClaude3Haiku | .anthropicClaude3Opus
  | .anthropicClaude35Haiku | .anthropicClaude4Sonnet | .anthropicClaude45Haiku
  | .anthropicClaude41Opus | .anthropicClaude45Opus | .anthropicClaude45Sonnet => true
  | .custom id =>
    strContains id "claude-3-" || strContains id "claude-3-5-" || strContains id "claude-4-"
  | _ => false

/-- The `MessageType` enum of `crate::schemas::messages`. -/
inductive MessageType where
  | systemMessage
  | humanMessage
  | aiMessage
  | toolMessage
  deriving DecidableEq

/-- A normalized `crate::schemas::Message` (only the fields the adapter
reads). -/
structure Message where
  message_type : MessageType
  content : String
  deriving DecidableEq

/-- `aws_sdk_bedrockruntime::types::ConversationRole`. -/
inductive ConversationRole where
  | user
  | assistant
  deriving DecidableEq

/-- A Bedrock Converse-API message (role plus one text content block). -/
structure BMessage where
  role : ConversationRole
  content : String
  deriving DecidableEq

/-- The loop body of `Bedrock::messages_to_converse_format`, with the two
mutable accumulators made explicit. -/
def convGo : List Message → Option String → List BMessage → Option String × List BMessage
  | [], systemPrompt, acc => (systemPrompt, acc)
  | m :: rest, systemPrompt, acc =>
    match m.message_type with
    | .systemMessage => convGo rest (some m.content) acc
    | .humanMessage => convGo rest systemPrompt (acc ++ [⟨.user, m.content⟩])
    | .aiMessage => convGo rest systemPrompt (acc ++ [⟨.assistant, m.content⟩])
    | .toolMessage => convGo rest systemPrompt (acc ++ [⟨.user, m.content⟩])

/-- `Bedrock::messages_to_converse_format`. -/
def messagesToConverseFormat (messages : List Message) : Option String × List BMessage :=
  convGo messages none []

/-- The leading system message of a list, if any — this is what claim C6
says is extracted as the side-channel instruction. -/
def leadingSystem : List Message → Option String
  | [] => none
  | m :: _ => if m.message_type = .systemMessage then some m.content else none

/-- The content of the last system message anywhere in the list (what the
code actually keeps, since each system message overwrites the accumulator). -/
def lastSystemContent : List Message → Option String
  | [] => none
  | m :: rest =>
    match lastSystemContent rest with
    | some c => some c
    | none => if m.message_type = .systemMessage then some m.content else none

/-- Role tagging of one non-system message: human and tool map to `user`,
ai maps to `assistant`. -/
def tagMessage (m : Message) : BMessage :=
  match m.message_type with
  | .aiMessage => ⟨.assistant, m.content⟩
  | _ => ⟨.user, m.content⟩

/-- The `Bedrock` struct: a lazily-created client handle plus configuration.
The handle type is abstract (`κ`); only its presence matters here. -/
structure Bedrock (κ : Type) where
  client : Option κ
  config : BedrockConfig

/-- `<Bedrock as Clone>::clone`: duplicates the configuration, never the
client handle. -/
def Bedrock.clone {κ : Type} (b : Bedrock κ) : Bedrock κ :=
  { client := none, config := b.config }

/-- `Bedrock::with_region`: sets the region and resets the client to force
reinitialization. -/
def Bedrock.withRegion {κ : Type} (b : Bedrock κ) (region : String) : Bedrock κ :=
  { client := none,
    config := { b.config with region := some region } }

/-- `LLMError` (the variants the Bedrock adapter produces). -/
inductive LLMError where
  | otherError (msg : String)
  | serdeError (msg : String)
  deriving DecidableEq

/-- `<Bedrock as LLM>::stream`: the unconditional not-implemented stub.
`σ` abstracts the stream value type; the body never produces one. -/
def bedrockStream {κ σ : Type} (_b : Bedrock κ) (_messages : List Message) :
    Except LLMError σ :=
  .error (.otherError "Streaming is not yet implemented for Bedrock")

/-! Wikipedia retrieval tool (`src/tools/wikipedia/wikipedia.rs`). -/

/-- Rust `String::len`: the UTF-8 byte length. -/
def byteLen (s : String) : Nat :=
  (s.data.map Char.utf8Size).sum

/-- Rust byte slicing `&s[..n]` on the character list: `some` when `n` is a
valid char boundary (the slice), `none` when the slice would panic (cut
inside a multi-byte character, or out of bounds). -/
def takeBytes : List Char → Nat → Option (List Char)
  | _, 0 => some []
  | [], _ + 1 => none
  | c :: cs, n + 1 =>
    if c.utf8Size ≤ n + 1 then (takeBytes cs (n + 1 - c.utf8Size)).map (c :: ·)
    else none

/-- The truncation step of `WikipediaQuery::fetch_page`:
`if extract.len() > max { &extract[..max] } else { extract }`.
`none` models a slicing panic. -/
def truncateExtract (extract : String) (maxLen : Nat) : Option String :=
  if byteLen extract > maxLen then (takeBytes extract.data maxLen).map String.mk
  else some extract

/-- The per-page rendering of `WikipediaQuery::fetch_page` once the page is
available: missing extract defaults to the empty string, then truncate and
format. `none` models a truncation panic. -/
def fetchPageRender (title : String) (extract : Option String) (maxLen : Nat) : Option String :=
  (truncateExtract (extract.getD "") maxLen).map
    (fun truncated => "Page: " ++ title ++ "\nSummary: " ++ truncated)

/-- Errors of the retrieval tool run, separating the input-validation
failures (the spec's `InvalidInput`) from upstream transport failures. -/
inductive ToolError where
  | invalidInput (msg : String)
  | upstream (msg : String)
  deriving DecidableEq

/-- The input-normalization prefix of `<WikipediaQuery as Tool>::run`:
a bare JSON string, or an object with a string `input` field. -/
def getQuery (input : Json) : Except ToolError String :=
  match input with
  | .str s => .ok s
  | .obj fields =>
    match lookupField fields "input" with
    | some (.str s) => .ok s
    | _ => .error (.invalidInput "Invalid input format: expected input field")
  | _ => .error (.invalidInput "Input must be a string or object with input field")

/-- Rust `query.trim().is_empty()`: every character is whitespace. -/
def trimEmpty (s : String) : Bool :=
  s.data.all Char.isWhitespace

/-- `<WikipediaQuery as Tool>::run`, with the two network calls abstracted
as oracles: `search` returns the titles for a query (or a transport error),
`fetchPage` the rendered page for a title (or a fetch error, which the loop
swallows and skips). -/
def runWiki (search : String → Except String (List String))
    (fetchPage : String → Except String String) (input : Json) :
    Except ToolError String :=
  match getQuery input with
  | .error e => .error e
  | .ok query =>
    if trimEmpty query then .error (.invalidInput "Query cannot be empty")
    else
      match search query with
      | .error e => .error (.upstream e)
      | .ok titles =>
        if titles.isEmpty then .ok ("No results found for query: " ++ query)
        else
          let results := titles.filterMap (fun title => (fetchPage title).toOption)
          if results.isEmpty then .ok "No page content could be retrieved"
          else .ok (String.intercalate "\n\n" results)

/-- The claim's notion of malformed retrieval-tool input (spec side, C9):
neither a bare string nor an object carrying a string `input` field, or an
extracted query that is empty or whitespace-only. -/
def specMalformed (input : Json) : Prop :=
  match input with
  | .str s => trimEmpty s = true
  | .obj fields =>
    match lookupField fields "input" with
    | some (.str s) => trimEmpty s = true
    | _ => True
  | _ => True

/-- Concrete amazon-provider configuration used by witnesses. -/
def cfgAmazonW : BedrockConfig :=
  ⟨some "us-west-2", .amazonTitanTextExpress, some (1/2), some 512, none, none, [], .obj []⟩

/-- Concrete anthropic configuration with one stop sequence. -/
def cfgAnthStopW : BedrockConfig :=
  ⟨some "us-west-2", .anthropicClaudeV2, some (4/5), some 256, none, none, ["STOP"], .obj []⟩

/-- Concrete anthropic configuration with no stop sequences. -/
def cfgAnthNoStopW : BedrockConfig :=
  ⟨some "us-west-2", .anthropicClaudeV2, some (4/5), some 256, none, none, [], .obj []⟩

/-- C1: `requires_converse_api` returns `true` exactly for the named
Claude-3/3.5/4-family variants and for custom ids containing one of the
substrings `"claude-3-"`, `"claude-3-5-"`, `"claude-4-"`, and `false` for
every other model. -/
theorem requires_converse_api_spec (m : BedrockModel) :
    requiresConverseApi m = true ↔
      (m = .anthropicClaude3Sonnet ∨ m = .anthropicClaude3Haiku ∨
       m = .anthropicClaude3Opus ∨ m = .anthropicClaude35Haiku ∨
       m = .anthropicClaude4Sonnet ∨ m = .anthropicClaude45Haiku ∨
       m = .anthropicClaude41Opus ∨ m = .anthropicClaude45Opus ∨
       m = .anthropicClaude45Sonnet ∨
       (∃ id, m = .custom id ∧
         (strContains id "claude-3-" = true ∨ strContains id "claude-3-5-" = true ∨
          strContains id "claude-4-" = true))) := by
  cases m <;> simp [requiresConverseApi, or_assoc]

theorem isPrefixOf_append_self (l t : List Char) : l.isPrefixOf (l ++ t) = true := by
  induction l with
  | nil => simp [List.isPrefixOf]
  | cons c cs ih => simp [List.isPrefixOf, ih]

theorem isSuffixOf_append_self (l t : List Char) : t.isSuffixOf (l ++ t) = true := by
  unfold List.isSuffixOf
  rw [List.reverse_append]
  exact isPrefixOf_append_self _ _

theorem wrapped_starts_human (p : String) :
    strStartsWith ("\n\nHuman: " ++ p ++ "\n\nAssistant:") "\n\nHuman:" = true := by
  unfold strStartsWith
  rw [String.data_append, String.data_append]
  have h9 : ("\n\nHuman: " : String).data = ("\n\nHuman:" : String).data ++ [' '] := by decide
  rw [h9, List.append_assoc, List.append_assoc]
  exact isPrefixOf_append_self _ _

/-- C5: `format_prompt` passes human-prefixed anthropic prompts through
unchanged, wraps all other anthropic prompts between `"\n\nHuman: "` and
`"\n\nAssistant:"`, is idempotent for anthropic, and is the identity for
every non-anthropic provider. -/
theorem format_prompt_spec :
    (∀ p : String, strStartsWith p "\n\nHuman:" = true → formatPrompt "anthropic" p = p) ∧
    (∀ p : String, strStartsWith p "Human:" = false → strStartsWith p "\n\nHuman:" = false →
      strStartsWith (formatPrompt "anthropic" p) "\n\nHuman: " = true ∧
      strEndsWith (formatPrompt "anthropic" p) "\n\nAssistant:" = true) ∧
    (∀ p : String,
      formatPrompt "anthropic" (formatPrompt "anthropic" p) = formatPrompt "anthropic" p) ∧
    (∀ provider p : String, provider ≠ "anthropic" → formatPrompt provider p = p) := by
  refine ⟨fun p h => ?_, fun p h1 h2 => ?_, fun p => ?_, fun provider p h => ?_⟩
  · simp [formatPrompt, h]
  · have e : formatPrompt "anthropic" p = "\n\nHuman: " ++ p ++ "\n\nAssistant:" := by
      simp [formatPrompt, h1, h2]
    rw [e]
    constructor
    · unfold strStartsWith
      rw [String.data_append, String.data_append, List.append_assoc]
      exact isPrefixOf_append_self _ _
    · unfold strEndsWith
      rw [String.data_append]
      exact isSuffixOf_append_self _ _
  · by_cases h : (strStartsWith p "Human:" || strStartsWith p "\n\nHuman:") = true
    · have e : formatPrompt "anthropic" p = p := by simp [formatPrompt, h]
      rw [e]
      exact e
    · simp only [Bool.or_eq_true, not_or, Bool.not_eq_true] at h
      obtain ⟨ha, hb⟩ := h
      have e : formatPrompt "anthropic" p = "\n\nHuman: " ++ p ++ "\n\nAssistant:" := by
        simp [formatPrompt, ha, hb]
      rw [e]
      simp [formatPrompt, wrapped_starts_human p]
  · simp [formatPrompt, h]

/-- C5 witness: concrete instances of each hypothesized part. -/
theorem format_prompt_spec_witness :
    formatPrompt "anthropic" "\n\nHuman: Hello\n\nAssistant:" = "\n\nHuman: Hello\n\nAssistant:" ∧
    (strStartsWith (formatPrompt "anthropic" "What is the capital of France?") "\n\nHuman: " = true ∧
     strEndsWith (formatPrompt "anthropic" "What is the capital of France?") "\n\nAssistant:" = true) ∧
    formatPrompt "amazon" "What is the capital of France?" = "What is the capital of France?" :=
  ⟨format_prompt_spec.1 _ (by decide),
   format_prompt_spec.2.1 _ (by decide) (by decide),
   format_prompt_spec.2.2.2 "amazon" _ (by decide)⟩

/-- C2: per-provider field mapping of `build_request_body` — amazon with
temperature 0.5, max_tokens 512 and an empty stop list yields `inputText`
equal to the (formatted) prompt, `textGenerationConfig.maxTokenCount = 512`
and `textGenerationConfig.temperature` within 0.01 of 0.5; anthropic with
one configured stop sequence yields a `stop_sequences` array of length 1,
and the field is absent when no stop sequences are configured; an unknown
provider tag fails with `InvalidModel` (the spec's
`InvalidModelConfiguration`). -/
theorem build_request_body_spec :
    (∀ (config : BedrockConfig) (prompt : String),
      config.model.provider = "amazon" →
      config.temperature = some (1/2) →
      config.max_tokens = some 512 →
      config.stop_sequences = [] →
      ∃ body, buildRequestBody config prompt = .ok body ∧
        jGet body "inputText" = some (.str (formatPrompt "amazon" prompt)) ∧
        jGet body "inputText" = some (.str prompt) ∧
        ((jGet body "textGenerationConfig").bind (fun t => jGet t "maxTokenCount")) =
          some (.num 512) ∧
        (∃ q : ℚ, ((jGet body "textGenerationConfig").bind (fun t => jGet t "temperature")) =
          some (.num q) ∧ |q - 1/2| < 1/100)) ∧
    (∀ (config : BedrockConfig) (prompt s : String),
      config.model.provider = "anthropic" →
      config.stop_sequences = [s] →
      ∃ body, buildRequestBody config prompt = .ok body ∧
        ∃ xs, jGet body "stop_sequences" = some (.arr xs) ∧ xs.length = 1) ∧
    (∀ (config : BedrockConfig) (prompt : String),
      config.model.provider = "anthropic" →
      config.stop_sequences = [] →
      ∃ body, buildRequestBody config prompt = .ok body ∧
        jGet body "stop_sequences" = none) ∧
    (∀ (provider : String) (config : BedrockConfig) (prompt : String),
      provider ≠ "anthropic" → provider ≠ "ai21" → provider ≠ "amazon" →
      provider ≠ "cohere" → provider ≠ "meta" →
      ∃ msg, buildRequestBodyFor provider config prompt = .error (.invalidModel msg)) := by
  refine ⟨?_, ?_, ?_, ?_⟩
  · intro config prompt hprov htemp hmax hstops
    have e : buildRequestBody config prompt = .ok (Json.obj
        [("inputText", .str prompt),
         ("textGenerationConfig", .obj
           [("maxTokenCount", .num ((512 : Int) : ℚ)),
            ("temperature", .num (1/2)),
            ("topP", .num (config.top_p.getD 1)),
            ("stopSequences", .arr [])])]) := by
      unfold buildRequestBody
      rw [hprov]
      simp [buildRequestBodyFor, formatPrompt, htemp, hmax, hstops]
    refine ⟨_, e, ?_, ?_, ?_, 1/2, ?_, by norm_num⟩ <;>
      simp [jGet, lookupField, formatPrompt]
  · intro config prompt s hprov hstops
    have e : ∃ fs, buildRequestBody config prompt = .ok (.obj fs) ∧
        lookupField fs "stop_sequences" = some (.arr [.str s]) := by
      unfold buildRequestBody
      rw [hprov]
      rcases config with ⟨reg, mdl, tmp, mx, tp, tk, stops, kw⟩
      simp only at hstops
      subst hstops
      rcases tmp with _ | t <;> rcases tp with _ | vp <;> rcases tk with _ | vk <;>
        simp [buildRequestBodyFor, jSet, setField, lookupField]
    obtain ⟨fs, hb, hf⟩ := e
    exact ⟨_, hb, [.str s], by simpa [jGet] using hf, rfl⟩
  · intro config prompt hprov hstops
    have e : ∃ fs, buildRequestBody config prompt = .ok (.obj fs) ∧
        lookupField fs "stop_sequences" = none := by
      unfold buildRequestBody
      rw [hprov]
      rcases config with ⟨reg, mdl, tmp, mx, tp, tk, stops, kw⟩
      simp only at hstops
      subst hstops
      rcases tmp with _ | t <;> rcases tp with _ | vp <;> rcases tk with _ | vk <;>
        simp [buildRequestBodyFor, jSet, setField, lookupField]
    obtain ⟨fs, hb, hf⟩ := e
    exact ⟨_, hb, by simpa [jGet] using hf⟩
  · intro provider config prompt h1 h2 h3 h4 h5
    exact ⟨"Unsupported model provider: " ++ provider,
      by simp [buildRequestBodyFor, h1, h2, h3, h4, h5]⟩

/-- C2 witness: each hypothesized part instantiated at a concrete
configuration. -/
theorem build_request_body_spec_witness :
    (∃ body, buildRequestBody cfgAmazonW "Test prompt" = .ok body ∧
      jGet body "inputText" = some (.str (formatPrompt "amazon" "Test prompt")) ∧
      jGet body "inputText" = some (.str "Test prompt") ∧
      ((jGet body "textGenerationConfig").bind (fun t => jGet t "maxTokenCount")) =
        some (.num 512) ∧
      (∃ q : ℚ, ((jGet body "textGenerationConfig").bind (fun t => jGet t "temperature")) =
        some (.num q) ∧ |q - 1/2| < 1/100)) ∧
    (∃ body, buildRequestBody cfgAnthStopW "Test prompt" = .ok body ∧
      ∃ xs, jGet body "stop_sequences" = some (.arr xs) ∧ xs.length = 1) ∧
    (∃ body, buildRequestBody cfgAnthNoStopW "Test prompt" = .ok body ∧
      jGet body "stop_sequences" = none) ∧
    (∃ msg, buildRequestBodyFor "mistral" cfgAmazonW "Test prompt" =
      .error (.invalidModel msg)) :=
  ⟨build_request_body_spec.1 cfgAmazonW "Test prompt" rfl rfl rfl rfl,
   build_request_body_spec.2.1 cfgAnthStopW "Test prompt" "STOP" rfl rfl,
   build_request_body_spec.2.2.1 cfgAnthNoStopW "Test prompt" rfl rfl,
   build_request_body_spec.2.2.2 "mistral" cfgAmazonW "Test prompt"
     (by decide) (by decide) (by decide) (by decide) (by decide)⟩

theorem getD_extractStr (j : Json) (path : List PathStep) :
    (extractStr j path).getD "" = asStrOr (extractJson j path) := by
  unfold extractStr
  cases extractJson j path <;> rfl

/-- C3: for each of the five providers, `parse_response` on successfully
parsed JSON returns exactly the string at the documented fixed path,
defaulting to the empty string when the path is absent or not a string
(`extractStr` returns `none` precisely then); a failed JSON parse yields a
`serdeError` (the spec's `SerializationError`). -/
theorem parse_response_spec :
    (∀ j : Json, parseResponse "anthropic" (.ok j) =
      .ok ((extractStr j (docPath "anthropic")).getD "")) ∧
    (∀ j : Json, parseResponse "ai21" (.ok j) =
      .ok ((extractStr j (docPath "ai21")).getD "")) ∧
    (∀ j : Json, parseResponse "amazon" (.ok j) =
      .ok ((extractStr j (docPath "amazon")).getD "")) ∧
    (∀ j : Json, parseResponse "cohere" (.ok j) =
      .ok ((extractStr j (docPath "cohere")).getD "")) ∧
    (∀ j : Json, parseResponse "meta" (.ok j) =
      .ok ((extractStr j (docPath "meta")).getD "")) ∧
    (∀ provider e : String, parseResponse provider (.error e) = .error (.serdeError e)) := by
  refine ⟨?_, ?_, ?_, ?_, ?_, fun provider e => rfl⟩ <;>
    (intro j; simp [parseResponse, getD_extractStr, docPath, extractJson])

theorem startsWith_exists (s pat : String) (h : strStartsWith s pat = true) :
    ∃ t, s.data = pat.data ++ t := by
  unfold strStartsWith at h
  rcases (List.isPrefixOf_iff_prefix.mp h) with ⟨t, ht⟩
  exact ⟨t, ht.symm⟩

/-- C8: `provider()` on custom ids returns the tag matching the id's prefix
(checked in order `anthropic.`, `ai21.`, `amazon.`, `cohere.`, `meta.`),
and defaults to `"anthropic"` when no prefix matches, never failing. -/
theorem provider_custom_spec (id : String) :
    (strStartsWith id "anthropic." = true → (BedrockModel.custom id).provider = "anthropic") ∧
    (strStartsWith id "ai21." = true → (BedrockModel.custom id).provider = "ai21") ∧
    (strStartsWith id "amazon." = true → (BedrockModel.custom id).provider = "amazon") ∧
    (strStartsWith id "cohere." = true → (BedrockModel.custom id).provider = "cohere") ∧
    (strStartsWith id "meta." = true → (BedrockModel.custom id).provider = "meta") ∧
    (strStartsWith id "anthropic." = false → strStartsWith id "ai21." = false →
     strStartsWith id "amazon." = false → strStartsWith id "cohere." = false →
     strStartsWith id "meta." = false → (BedrockModel.custom id).provider = "anthropic") := by
  refine ⟨fun h => ?_, fun h => ?_, fun h => ?_, fun h => ?_, fun h => ?_,
    fun h1 h2 h3 h4 h5 => ?_⟩
  · simp [BedrockModel.provider, h]
  · obtain ⟨t, ht⟩ := startsWith_exists id "ai21." h
    simp [BedrockModel.provider, strStartsWith, ht, List.isPrefixOf]
  · obtain ⟨t, ht⟩ := startsWith_exists id "amazon." h
    simp [BedrockModel.provider, strStartsWith, ht, List.isPrefixOf]
  · obtain ⟨t, ht⟩ := startsWith_exists id "cohere." h
    simp [BedrockModel.provider, strStartsWith, ht, List.isPrefixOf]
  · obtain ⟨t, ht⟩ := startsWith_exists id "meta." h
    simp [BedrockModel.provider, strStartsWith, ht, List.isPrefixOf]
  · simp [BedrockModel.provider, h1, h2, h3, h4, h5]

/-- C8 witness: each prefix case and the fallback at concrete ids. -/
theorem provider_custom_spec_witness :
    (BedrockModel.custom "anthropic.claude-v2").provider = "anthropic" ∧
    (BedrockModel.custom "ai21.j2-mid-v1").provider = "ai21" ∧
    (BedrockModel.custom "amazon.titan-x").provider = "amazon" ∧
    (BedrockModel.custom "cohere.command-x").provider = "cohere" ∧
    (BedrockModel.custom "meta.llama2-x").provider = "meta" ∧
    (BedrockModel.custom "my-custom-model").provider = "anthropic" :=
  ⟨(provider_custom_spec _).1 (by decide),
   (provider_custom_spec _).2.1 (by decide),
   (provider_custom_spec _).2.2.1 (by decide),
   (provider_custom_spec _).2.2.2.1 (by decide),
   (provider_custom_spec _).2.2.2.2.1 (by decide),
   (provider_custom_spec _).2.2.2.2.2 (by decide) (by decide) (by decide) (by decide) (by decide)⟩

/-- C6 counterexample: on `[human "a", system "s"]` there is no leading
system message, yet the code extracts `"s"` as the side-channel system
instruction (any system message anywhere is extracted, the last one wins),
so the side-channel instruction is not the leading system message. -/
theorem messages_to_converse_counterexample :
    ¬ (∀ msgs : List Message, (messagesToConverseFormat msgs).1 = leadingSystem msgs) := by
  intro h
  have hc := h [⟨.humanMessage, "a"⟩, ⟨.systemMessage, "s"⟩]
  simp [messagesToConverseFormat, convGo, leadingSystem] at hc

theorem convGo_spec (msgs : List Message) : ∀ (sys : Option String) (acc : List BMessage),
    convGo msgs sys acc =
      ((lastSystemContent msgs).or sys,
       acc ++ (msgs.filter fun m => m.message_type ≠ .systemMessage).map tagMessage) := by
  induction msgs with
  | nil => intro sys acc; simp [convGo, lastSystemContent, Option.or]
  | cons m rest ih =>
    intro sys acc
    rcases m with ⟨mt, content⟩
    cases mt <;> cases hl : lastSystemContent rest <;>
      simp [convGo, ih, lastSystemContent, hl, tagMessage, Option.or]

/-- C6 amended: the conversational request extracts the LAST system message
appearing anywhere in the list (if any) as the side-channel instruction,
drops all system messages from the turn list, and forwards the remaining
messages in their original order with human and tool roles tagged `user`
and ai tagged `assistant`. -/
theorem messages_to_converse_amended (msgs : List Message) :
    messagesToConverseFormat msgs =
      (lastSystemContent msgs,
       (msgs.filter fun m => m.message_type ≠ .systemMessage).map tagMessage) := by
  unfold messagesToConverseFormat
  rw [convGo_spec]
  cases hl : lastSystemContent msgs <;> simp [Option.or]

/-- C7: the streaming entry point always fails with the not-implemented
error and never returns a stream, for every client state and message list. -/
theorem stream_spec (κ σ : Type) (b : Bedrock κ) (messages : List Message) :
    @bedrockStream κ σ b messages =
      .error (.otherError "Streaming is not yet implemented for Bedrock") ∧
    ∀ x : σ, @bedrockStream κ σ b messages ≠ .ok x := by
  exact ⟨rfl, fun x h => by simp [bedrockStream] at h⟩

/-- C7 witness: the stub at a concrete client and message list. -/
theorem stream_spec_witness :
    @bedrockStream Unit Unit ⟨none, BedrockConfig.default⟩ [] =
      .error (.otherError "Streaming is not yet implemented for Bedrock") ∧
    @bedrockStream Unit Unit ⟨none, BedrockConfig.default⟩ [] ≠ .ok () :=
  ⟨(stream_spec Unit Unit ⟨none, BedrockConfig.default⟩ []).1,
   (stream_spec Unit Unit ⟨none, BedrockConfig.default⟩ []).2 ()⟩

/-- C10: cloning duplicates the configuration and never the client handle;
`with_region` resets the handle to absent, sets the region, and leaves all
other configuration fields unchanged. -/
theorem clone_with_region_spec (κ : Type) (b : Bedrock κ) (region : String) :
    (b.clone.config = b.config ∧ b.clone.client = none) ∧
    ((b.withRegion region).client = none ∧
     (b.withRegion region).config.region = some region ∧
     (b.withRegion region).config.model = b.config.model ∧
     (b.withRegion region).config.temperature = b.config.temperature ∧
     (b.withRegion region).config.max_tokens = b.config.max_tokens ∧
     (b.withRegion region).config.top_p = b.config.top_p ∧
     (b.withRegion region).config.top_k = b.config.top_k ∧
     (b.withRegion region).config.stop_sequences = b.config.stop_sequences ∧
     (b.withRegion region).config.model_kwargs = b.config.model_kwargs) := by
  exact ⟨⟨rfl, rfl⟩, rfl, rfl, rfl, rfl, rfl, rfl, rfl, rfl, rfl⟩

/-- C1 witness: a named Claude-3 variant and a custom Claude-3 id. -/
theorem requires_converse_api_spec_witness :
    requiresConverseApi .anthropicClaude3Sonnet = true ∧
    requiresConverseApi (.custom "anthropic.claude-3-haiku-20240307-v1:0") = true :=
  ⟨(requires_converse_api_spec _).mpr (Or.inl rfl),
   (requires_converse_api_spec _).mpr
     (Or.inr (Or.inr (Or.inr (Or.inr (Or.inr (Or.inr (Or.inr (Or.inr (Or.inr
       ⟨_, rfl, Or.inl (by decide)⟩)))))))))⟩

theorem takeBytes_length : ∀ (cs : List Char) (n : Nat) (out : List Char),
    takeBytes cs n = some out → out.length ≤ n := by
  intro cs
  induction cs with
  | nil =>
    intro n out h
    cases n with
    | zero =>
      simp [takeBytes] at h
      simp [h.symm]
    | succ k => simp [takeBytes] at h
  | cons c cs ih =>
    intro n out h
    cases n with
    | zero =>
      simp [takeBytes] at h
      simp [h.symm]
    | succ k =>
      simp only [takeBytes] at h
      by_cases hsz : c.utf8Size ≤ k + 1
      · rw [if_pos hsz] at h
        obtain ⟨outTail, hTail, hEq⟩ := Option.map_eq_some'.mp h
        have hLen := ih _ _ hTail
        have hPos := Char.utf8Size_pos c
        subst hEq
        simp only [List.length_cons]
        omega
      · rw [if_neg hsz] at h
        exact absurd h (by simp)

theorem length_le_byteSum : ∀ l : List Char, l.length ≤ (l.map Char.utf8Size).sum := by
  intro l
  induction l with
  | nil => simp
  | cons c cs ih =>
    have hPos := Char.utf8Size_pos c
    simp only [List.length_cons, List.map_cons, List.sum_cons]
    omega

theorem byteSum_ascii : ∀ l : List Char, (∀ c ∈ l, c.utf8Size = 1) →
    (l.map Char.utf8Size).sum = l.length := by
  intro l
  induction l with
  | nil => intro _; simp
  | cons c cs ih =>
    intro h
    simp only [List.map_cons, List.sum_cons, List.length_cons]
    rw [h c (List.mem_cons_self c cs), ih (fun a ha => h a (List.mem_cons_of_mem c ha))]
    omega

theorem takeBytes_ascii : ∀ (cs : List Char) (n : Nat),
    (∀ c ∈ cs, c.utf8Size = 1) → n ≤ cs.length → ∃ out, takeBytes cs n = some out := by
  intro cs
  induction cs with
  | nil =>
    intro n _ hn
    have hn0 : n = 0 := by simpa using hn
    subst hn0
    exact ⟨[], rfl⟩
  | cons c cs ih =>
    intro n hAscii hn
    cases n with
    | zero => exact ⟨[], rfl⟩
    | succ k =>
      have h1 : c.utf8Size = 1 := hAscii c (List.mem_cons_self c cs)
      have hk : k ≤ cs.length := by simp at hn; omega
      obtain ⟨out, hout⟩ := ih k (fun a ha => hAscii a (List.mem_cons_of_mem c ha)) hk
      refine ⟨c :: out, ?_⟩
      simp [takeBytes, h1, hout]

/-- C4 counterexample: the truncation step of `fetch_page` DOES abort when
the byte cut point falls inside a multi-byte character — `none` models the
Rust byte-slice panic of `&extract[..max_doc_content_length]` — so the
claim that every failure is returned as a value and the truncation never
aborts is false: with a two-byte character and `max_doc_content_length = 1`
the page fetch panics. -/
theorem fetch_page_truncation_counterexample :
    ¬ (∀ (title : String) (extract : Option String) (maxLen : Nat),
        fetchPageRender title extract maxLen ≠ none) := by
  intro h
  exact h "T" (some (String.mk ['é', 'a'])) 1 (by decide)

/-- C4 amended: whenever the truncation completes without panicking, the
truncated extract has at most `max_doc_content_length` characters; and the
truncation never panics when every character of the extract is single-byte
(in particular on pure-ASCII extracts) — but the cut can panic inside a
multi-byte character (see the counterexample). -/
theorem truncate_extract_spec :
    (∀ (extract : String) (maxLen : Nat) (out : String),
      truncateExtract extract maxLen = some out → out.length ≤ maxLen) ∧
    (∀ (extract : String) (maxLen : Nat),
      (∀ c ∈ extract.data, c.utf8Size = 1) →
      ∃ out, truncateExtract extract maxLen = some out) := by
  constructor
  · intro extract maxLen out h
    unfold truncateExtract at h
    by_cases hgt : byteLen extract > maxLen
    · rw [if_pos hgt] at h
      obtain ⟨cs, hTake, hEq⟩ := Option.map_eq_some'.mp h
      have := takeBytes_length _ _ _ hTake
      subst hEq
      simpa [String.length] using this
    · rw [if_neg hgt] at h
      have hEq : extract = out := by simpa using h
      subst hEq
      have h1 := length_le_byteSum extract.data
      unfold byteLen at hgt
      simp only [String.length]
      omega
  · intro extract maxLen hAscii
    unfold truncateExtract
    by_cases hgt : byteLen extract > maxLen
    · rw [if_pos hgt]
      have hsum := byteSum_ascii extract.data hAscii
      have hLen : maxLen ≤ extract.data.length := by
        unfold byteLen at hgt
        omega
      obtain ⟨out, hout⟩ := takeBytes_ascii extract.data maxLen hAscii hLen
      exact ⟨String.mk out, by rw [hout]; rfl⟩
    · rw [if_neg hgt]
      exact ⟨extract, rfl⟩

/-- C4 witness: a concrete truncation and a concrete ASCII no-panic case. -/
theorem truncate_extract_spec_witness :
    (truncateExtract "abcd" 2 = some "ab" ∧ ("ab" : String).length ≤ 2) ∧
    (∃ out, truncateExtract "hello" 3 = some out) :=
  ⟨⟨by decide, truncate_extract_spec.1 "abcd" 2 "ab" (by decide)⟩,
   truncate_extract_spec.2 "hello" 3 (by decide)⟩

theorem listIsInfix_append_self (pat t : List Char) : listIsInfix pat (pat ++ t) = true := by
  cases pat with
  | nil => cases t <;> simp [listIsInfix, List.isPrefixOf]
  | cons c cs => simp [listIsInfix, isPrefixOf_append_self]

theorem getQuery_error (input : Json) (e : ToolError) (h : getQuery input = .error e) :
    ∃ m, e = .invalidInput m := by
  cases input with
  | str s => simp [getQuery] at h
  | obj fields =>
    simp only [getQuery] at h
    split at h
    · simp at h
    · simp at h
      exact ⟨_, h.symm⟩
  | null => simp [getQuery] at h; exact ⟨_, h.symm⟩
  | bool b => simp [getQuery] at h; exact ⟨_, h.symm⟩
  | num q => simp [getQuery] at h; exact ⟨_, h.symm⟩
  | arr xs => simp [getQuery] at h; exact ⟨_, h.symm⟩

theorem specMalformed_iff (input : Json) :
    specMalformed input ↔
      ((∃ e, getQuery input = .error e) ∨
       (∃ q, getQuery input = .ok q ∧ trimEmpty q = true)) := by
  cases input with
  | str s => simp [specMalformed, getQuery]
  | obj fields =>
    rcases hl : lookupField fields "input" with _ | j
    · simp [specMalformed, getQuery, hl]
    · cases j <;> simp [specMalformed, getQuery, hl]
  | null => simp [specMalformed, getQuery]
  | bool b => simp [specMalformed, getQuery]
  | num q => simp [specMalformed, getQuery]
  | arr xs => simp [specMalformed, getQuery]

theorem runWiki_ok (search : String → Except String (List String))
    (fetchPage : String → Except String String) (input : Json) (q : String)
    (hq : getQuery input = .ok q) :
    runWiki search fetchPage input =
      (if trimEmpty q then .error (.invalidInput "Query cannot be empty")
       else match search q with
       | .error e => .error (.upstream e)
       | .ok titles =>
         if titles.isEmpty then .ok ("No results found for query: " ++ q)
         else
           let results := titles.filterMap (fun title => (fetchPage title).toOption)
           if results.isEmpty then .ok "No page content could be retrieved"
           else .ok (String.intercalate "\n\n" results)) := by
  unfold runWiki
  rw [hq]

theorem runWiki_search_ok (search : String → Except String (List String))
    (fetchPage : String → Except String String) (input : Json) (q : String)
    (titles : List String) (hq : getQuery input = .ok q) (ht : trimEmpty q = false)
    (hs : search q = .ok titles) :
    runWiki search fetchPage input =
      (if titles.isEmpty then .ok ("No results found for query: " ++ q)
       else if (titles.filterMap fun title => (fetchPage title).toOption).isEmpty then
         .ok "No page content could be retrieved"
       else .ok (String.intercalate "\n\n"
         (titles.filterMap fun title => (fetchPage title).toOption))) := by
  rw [runWiki_ok search fetchPage input q hq, if_neg (by simp [ht]), hs]

theorem runWiki_error (search : String → Except String (List String))
    (fetchPage : String → Except String String) (input : Json) (e : ToolError)
    (hq : getQuery input = .error e) :
    runWiki search fetchPage input = .error e := by
  unfold runWiki
  rw [hq]

/-- C9: the retrieval tool's run fails with `invalidInput` exactly on
malformed input (neither a bare string nor an object with a string `input`
field, or an empty/whitespace-only query); a well-formed query whose
search returns zero titles yields a successful "No results" message; a
well-formed query all of whose page fetches fail yields a successful
empty-result message — never an error. -/
theorem wikipedia_run_spec :
    (∀ (search : String → Except String (List String))
       (fetchPage : String → Except String String) (input : Json),
      (∃ m, runWiki search fetchPage input = .error (.invalidInput m)) ↔
        specMalformed input) ∧
    (∀ (search : String → Except String (List String))
       (fetchPage : String → Except String String) (input : Json) (q : String),
      getQuery input = .ok q → trimEmpty q = false → search q = .ok [] →
      runWiki search fetchPage input = .ok ("No results found for query: " ++ q) ∧
      strContains ("No results found for query: " ++ q) "No results" = true) ∧
    (∀ (search : String → Except String (List String))
       (fetchPage : String → Except String String) (input : Json) (q : String)
       (titles : List String),
      getQuery input = .ok q → trimEmpty q = false → search q = .ok titles →
      titles ≠ [] → (∀ t ∈ titles, ∃ e, fetchPage t = .error e) →
      runWiki search fetchPage input = .ok "No page content could be retrieved") := by
  refine ⟨?_, ?_, ?_⟩
  · intro search fetchPage input
    constructor
    · rintro ⟨m, hm⟩
      rw [specMalformed_iff]
      cases hq : getQuery input with
      | error e => exact Or.inl ⟨e, rfl⟩
      | ok q =>
        by_cases ht : trimEmpty q = true
        · exact Or.inr ⟨q, rfl, ht⟩
        · exfalso
          have htf : trimEmpty q = false := by simp [ht]
          cases hs : search q with
          | error e2 =>
            rw [runWiki_ok search fetchPage input q hq, if_neg (by simp [ht]), hs] at hm
            simp at hm
          | ok titles =>
            rw [runWiki_search_ok search fetchPage input q titles hq htf hs] at hm
            split at hm
            · simp at hm
            · split at hm <;> simp at hm
    · intro hmal
      rw [specMalformed_iff] at hmal
      rcases hmal with ⟨e, he⟩ | ⟨q, hq, ht⟩
      · obtain ⟨m, rfl⟩ := getQuery_error input e he
        exact ⟨m, runWiki_error search fetchPage input _ he⟩
      · refine ⟨"Query cannot be empty", ?_⟩
        rw [runWiki_ok search fetchPage input q hq, if_pos (by simp [ht])]
  · intro search fetchPage input q hq ht hs
    constructor
    · rw [runWiki_search_ok search fetchPage input q [] hq ht hs]
      simp
    · have e : ("No results found for query: " ++ q).data =
          ("No results" : String).data ++ ((" found for query: " : String).data ++ q.data) := by
        rw [String.data_append]
        have e2 : ("No results found for query: " : String).data =
            ("No results" : String).data ++ (" found for query: " : String).data := by decide
        rw [e2, List.append_assoc]
      unfold strContains
      rw [e]
      exact listIsInfix_append_self _ _
  · intro search fetchPage input q titles hq ht hs hne hfail
    rw [runWiki_search_ok search fetchPage input q titles hq ht hs]
    have hres : titles.filterMap (fun title => (fetchPage title).toOption) = [] := by
      rw [List.filterMap_eq_nil_iff]
      intro t htmem
      obtain ⟨e, he⟩ := hfail t htmem
      simp [he, Except.toOption]
    simp [List.isEmpty_iff, hne, hres]

/-- C9 witness: a malformed numeric input, a zero-result query, and a
query whose only page fetches fail. -/
theorem wikipedia_run_spec_witness :
    (∃ m, runWiki (fun _ => .ok []) (fun _ => .error "net down") (Json.num 3) =
      .error (.invalidInput m)) ∧
    (runWiki (fun _ => .ok []) (fun _ => .error "net down") (.str "hello") =
      .ok ("No results found for query: " ++ "hello") ∧
     strContains ("No results found for query: " ++ "hello") "No results" = true) ∧
    (runWiki (fun _ => .ok ["A", "B"]) (fun _ => .error "net down") (.str "hello") =
      .ok "No page content could be retrieved") :=
  ⟨(wikipedia_run_spec.1 (fun _ => .ok []) (fun _ => .error "net down") (Json.num 3)).mpr
     (by simp [specMalformed]),
   wikipedia_run_spec.2.1 (fun _ => .ok []) (fun _ => .error "net down") (.str "hello")
     "hello" rfl (by decide) rfl,
   wikipedia_run_spec.2.2 (fun _ => .ok ["A", "B"]) (fun _ => .error "net down")
     (.str "hello") "hello" ["A", "B"] rfl (by decide) rfl (by decide)
     (fun t _ => ⟨"net down", rfl⟩)⟩

end LangchainRust
